import Mathlib

/-!
Shallow embedding of `pg_simple/pool.py` (class `AbstractConnectionPool` and its
subclasses' public aliases).  Python dictionaries keyed by ints / by `id(conn)`
are modelled as association lists over `Nat`; physical connections are modelled
by a numeric identity (`id(conn)`) together with a `ConnInfo` record holding
the observable driver state (`closed`, transaction status) and instrumentation
counters for `close()` / `rollback()` invocations.  Wall-clock time is a `Nat`
field `now` of the state, advanced explicitly; `time.time()` reads it.
Exceptions are explicit: each operation returns its mutated state together with
the exception raised, if any, so that mutations performed before a `raise`
remain visible, exactly as in Python.
-/

namespace PgPool

/-- psycopg2 transaction status values (`psycopg2.extensions.TRANSACTION_STATUS_*`). -/
inductive TxnStatus
  | idle
  | active
  | inTrans
  | inError
  | unknown
deriving DecidableEq

/-- Observable state of one physical psycopg2 connection, plus invocation
counters used to state "exactly once" properties. -/
structure ConnInfo where
  closed : Bool
  status : TxnStatus
  rollbackCount : Nat
  closeCount : Nat
deriving DecidableEq

/-- Python exceptions that escape the pool's methods. -/
inductive PyErr
  | poolError (msg : String)
  | keyError
  | attributeError
  | typeError
deriving DecidableEq

/-- Exception class name, as a caller's `except` clause would dispatch on it. -/
def PyErr.ty : PyErr → String
  | PyErr.poolError _ => ("PoolError")
  | PyErr.keyError => ("KeyError")
  | PyErr.attributeError => ("AttributeError")
  | PyErr.typeError => ("TypeError")

/-- A borrower-slot key.  Pool-generated keys are ints (`_get_key`); a caller
may also supply its own key, and string keys behave differently from int keys
at the eager log formatting in `_put_conn` (pool.py line 128). -/
inductive PyKey
  | intKey (n : Nat)
  | strKey (s : String)
deriving DecidableEq

/-- Python truthiness of a key (`if key` / `if not key`): 0 and the empty
string are falsy. -/
def PyKey.truthy : PyKey → Bool
  | PyKey.intKey n => decide (n ≠ 0)
  | PyKey.strKey s => decide (s ≠ "")

/-- Association-list model of a Python dict: lookup. -/
def dlookup {κ α : Type} [DecidableEq κ] : List (κ × α) → κ → Option α
  | [], _ => none
  | (k, v) :: rest, k0 => if k = k0 then some v else dlookup rest k0

/-- Association-list model of a Python dict: `d[k] = v`. -/
def dset {κ α : Type} [DecidableEq κ] : List (κ × α) → κ → α → List (κ × α)
  | [], k0, v0 => [(k0, v0)]
  | (k, v) :: rest, k0, v0 =>
      if k = k0 then (k, v0) :: rest else (k, v) :: dset rest k0 v0

/-- Association-list model of a Python dict: `del d[k]` (the caller checks
presence; absence raises `KeyError` at the call site). -/
def ddel {κ α : Type} [DecidableEq κ] : List (κ × α) → κ → List (κ × α)
  | [], _ => []
  | (k, v) :: rest, k0 => if k = k0 then rest else (k, v) :: ddel rest k0

/-- In-place mutation of the connection registered under an identity. -/
def dupdate {κ α : Type} [DecidableEq κ] : List (κ × α) → κ → (α → α) → List (κ × α)
  | [], _, _ => []
  | (k, v) :: rest, k0, f =>
      if k = k0 then (k, f v) :: dupdate rest k0 f
      else (k, v) :: dupdate rest k0 f

/-- The bookkeeping state of `AbstractConnectionPool`, together with the model
of the outside world (the registry of physical connections and the clock). -/
structure PoolState where
  /-- `self._pool`: the free list of connection identities. -/
  pool : List Nat
  /-- `self._used`: key -> connection identity. -/
  used : List (PyKey × Nat)
  /-- `self._rused`: connection identity -> key. -/
  rused : List (Nat × PyKey)
  /-- `self._tused`: connection identity -> last used timestamp. -/
  tused : List (Nat × Nat)
  /-- `self._keys`: the monotonically increasing key counter. -/
  keys : Nat
  /-- `self._disposed`. -/
  disposed : Bool
  /-- `self.max_conn`. -/
  maxConn : Nat
  /-- `self.expiration`. -/
  expiration : Nat
  /-- `self._disable_pooling`. -/
  disablePooling : Bool
  /-- World: identity -> driver-side state of each connection created so far. -/
  conns : List (Nat × ConnInfo)
  /-- World: next fresh connection identity. -/
  nextConn : Nat
  /-- World: current value of `time.time()`. -/
  now : Nat
deriving DecidableEq

/-- `AbstractConnectionPool.__init__(max_conn, expiration, disable_pooling)`. -/
def mkPool (maxConn expirationSecs : Nat) (disablePooling : Bool) : PoolState :=
  { pool := [], used := [], rused := [], tused := [], keys := 0, disposed := false,
    maxConn := maxConn, expiration := expirationSecs, disablePooling := disablePooling,
    conns := [], nextConn := 0, now := 0 }

/-- `conn.close()`: the driver marks the connection closed (idempotent); the
counter records the number of invocations. -/
def closeConn (s : PoolState) (cid : Nat) : PoolState :=
  { s with
    conns := dupdate s.conns cid (fun ci =>
      { ci with
        closed := true,
        closeCount := ci.closeCount + 1 }) }

/-- `conn.rollback()`: aborts the open transaction, leaving the session idle;
the counter records the number of invocations. -/
def rollbackConn (s : PoolState) (cid : Nat) : PoolState :=
  { s with
    conns := dupdate s.conns cid (fun ci =>
      { ci with
        status := TxnStatus.idle,
        rollbackCount := ci.rollbackCount + 1 }) }

/-- `AbstractConnectionPool._connect(key)`: `psycopg2.connect` produces a fresh
open idle connection; when pooling is enabled it is registered under `key`
(or appended to the free list when `key is None`). -/
def connect (s : PoolState) (key : Option PyKey) : PoolState × Nat :=
  let cid := s.nextConn
  let s1 : PoolState :=
    { s with
      nextConn := cid + 1,
      conns := dset s.conns cid ⟨false, TxnStatus.idle, 0, 0⟩ }
  if s1.disablePooling then (s1, cid)
  else
    match key with
    | some k =>
        ({ s1 with
           used := dset s1.used k cid,
           rused := dset s1.rused cid k,
           tused := dset s1.tused cid s1.now }, cid)
    | none => ({ s1 with pool := s1.pool ++ [cid] }, cid)

/-- `AbstractConnectionPool._release(conn, remove_from_pool)`. -/
def release (s : PoolState) (cid : Nat) (removeFromPool : Bool) : PoolState :=
  let s1 : PoolState :=
    if ¬ s.disablePooling ∧ removeFromPool ∧ cid ∈ s.pool then
      { s with pool := s.pool.erase cid, tused := ddel s.tused cid }
    else s
  closeConn s1 cid

/-- The key `_get_conn` will operate with: the caller's key, or the next value
of the monotonic counter (`_get_key`). -/
def nextKey (s : PoolState) : Option PyKey → PyKey
  | some k => k
  | none => PyKey.intKey (s.keys + 1)

/-- `AbstractConnectionPool._get_conn(key)`. -/
def getConn (s : PoolState) (key : Option PyKey) : PoolState × Except PyErr Nat :=
  if s.disposed then (s, Except.error (PyErr.poolError ("Connection pool is disposed")))
  else if s.disablePooling then
    let r := connect s key
    (r.1, Except.ok r.2)
  else
    let s1 : PoolState :=
      match key with
      | none => { s with keys := s.keys + 1 }
      | some _ => s
    let k := nextKey s key
    match dlookup s1.used k with
    | some cid => (s1, Except.ok cid)
    | none =>
      match s1.pool.getLast? with
      | some cid =>
          ({ s1 with
             pool := s1.pool.dropLast,
             used := dset s1.used k cid,
             rused := dset s1.rused cid k,
             tused := dset s1.tused cid s1.now }, Except.ok cid)
      | none =>
          if s1.used.length = s1.maxConn then
            (s1, Except.error (PyErr.poolError ("Connection pool exhausted")))
          else
            let r := connect s1 (some k)
            (r.1, Except.ok r.2)

/-- The expiry test of `_purge_expired_connections`:
`now - self._tused[id(item)] >= self.expiration`.  In every reachable state
each free-list member has a `tused` entry, so the `getD` default is inert. -/
def isExpired (s : PoolState) (cid : Nat) : Bool :=
  decide (s.expiration ≤ s.now - (dlookup s.tused cid).getD 0)

/-- `AbstractConnectionPool._purge_expired_connections`: collect the expired
free-list members, then `_release(item, True)` each of them. -/
def purgeExpired (s : PoolState) : PoolState :=
  if s.disablePooling then s
  else (s.pool.filter (isExpired s)).foldl (fun st cid => release st cid true) s

/-- Key resolution at the top of `_put_conn`:
`if key is None: key = self._rused.get(id(conn))`. -/
def resolveKey (s : PoolState) (cid : Nat) : Option PyKey → Option PyKey
  | some k => some k
  | none => dlookup s.rused cid

/-- Lines 139-159 of pool.py: the transaction-state reconciliation of
`_put_conn`.  In the `TRANSACTION_STATUS_UNKNOWN` branch the source calls
`self._release(conn.close)`, passing the bound method instead of the
connection; `_release` then evaluates `conn.close()` on that method object,
which raises `AttributeError` before anything at all is closed or unregistered. -/
def reconcile (s : PoolState) (cid : Nat) (close : Bool) : PoolState × Option PyErr :=
  if s.pool.length < s.maxConn ∧ close = false then
    let ci := (dlookup s.conns cid).getD ⟨true, TxnStatus.unknown, 0, 0⟩
    if ci.closed = false then
      if ci.status = TxnStatus.unknown then
        (s, some PyErr.attributeError)
      else if ¬ ci.status = TxnStatus.idle then
        let s2 := rollbackConn s cid
        ({ s2 with pool := s2.pool ++ [cid] }, none)
      else
        ({ s with pool := s.pool ++ [cid] }, none)
    else (s, none)
  else (release s cid false, none)

/-- Lines 163-167 of pool.py: the guarded removal of the key's bookkeeping
entries at the end of `_put_conn`.  Each `del` raises `KeyError` when its key
is absent, aborting there with the earlier mutations kept. -/
def finishPut (s2 : PoolState) (cid : Nat) (k : PyKey) : PoolState × Option PyErr :=
  if s2.disposed = false ∨ (dlookup s2.used k).isSome = true then
    match dlookup s2.used k with
    | some _ =>
      let s3 : PoolState := { s2 with used := ddel s2.used k }
      match dlookup s3.rused cid with
      | some _ => ({ s3 with rused := ddel s3.rused cid }, none)
      | none => (s3, some PyErr.keyError)
    | none => (s2, some PyErr.keyError)
  else (s2, none)

/-- Does the eager log formatting at pool.py line 128 raise?  The argument
`" key=" + key if key else ""` is evaluated before `_log` runs, before the
disposed check and before any mutation; for a truthy int key the string
concatenation raises TypeError, for a string or falsy key it succeeds. -/
def logFmtRaises : Option PyKey → Bool
  | some (PyKey.intKey n) => decide (n ≠ 0)
  | some (PyKey.strKey _) => false
  | none => false

/-- `AbstractConnectionPool._put_conn(conn, key, close, fail_silently)`.
After the disable-pooling early return, the log call at line 128 formats its
argument eagerly (see `logFmtRaises`); then the disposed check, key
resolution (`if not key` treats falsy keys — 0, "" — as un-keyed), the
transaction-state reconciliation, the purge pass, and the guarded deletes. -/
def putConn (s : PoolState) (cid : Nat) (key : Option PyKey) (close fs : Bool) :
    PoolState × Option PyErr :=
  if s.disablePooling then (release s cid false, none)
  else if logFmtRaises key then (s, some PyErr.typeError)
  else if s.disposed then
    if fs then (s, none)
    else (s, some (PyErr.poolError ("Connection pool is disposed")))
  else
    match resolveKey s cid key with
    | none => (s, some (PyErr.poolError ("Trying to put un-keyed connection")))
    | some k =>
      if k.truthy = false then (s, some (PyErr.poolError ("Trying to put un-keyed connection")))
      else
        let r1 := reconcile s cid close
        match r1.2 with
        | some e => (r1.1, some e)
        | none => finishPut (purgeExpired r1.1) cid k

/-- `AbstractConnectionPool._release_all`.  In normal operation `gc.collect()`
succeeds, so the incomplete-finalization bail-out does not fire; individual
`conn.close()` failures are swallowed (the model's `closeConn` cannot fail). -/
def releaseAll (s : PoolState) : PoolState × Option PyErr :=
  if s.disposed then (s, some (PyErr.poolError ("Connection pool is disposed")))
  else
    let s1 : PoolState :=
      if ¬ s.disablePooling then (s.pool ++ s.used.map Prod.snd).foldl closeConn s
      else s
    ({ s1 with disposed := true, pool := [], used := [] }, none)

/-- `AbstractConnectionPool.__del__`: delegates to `_release_all`. -/
def delFinalize (s : PoolState) : PoolState × Option PyErr :=
  releaseAll s

/-- One pool operation or external event of a trace. -/
inductive Op
  | get (key : Option PyKey)
  | put (cid : Nat) (key : Option PyKey) (close fs : Bool)
  | purge
  | dispose
  | tick (dt : Nat)
  | setStatus (cid : Nat) (st : TxnStatus)
deriving DecidableEq

/-- Execute one operation, keeping the mutated state (exceptions escape to the
caller; the pool object stays as the raise left it). `tick` advances the clock
and `setStatus` models the server changing a connection's transaction status. -/
def step (s : PoolState) : Op → PoolState
  | Op.get key => (getConn s key).1
  | Op.put cid key close fs => (putConn s cid key close fs).1
  | Op.purge => purgeExpired s
  | Op.dispose => (releaseAll s).1
  | Op.tick dt => { s with now := s.now + dt }
  | Op.setStatus cid st =>
      { s with conns := dupdate s.conns cid (fun ci => { ci with status := st }) }

/-- Execute a trace of operations. -/
def run (s : PoolState) : List Op → PoolState
  | [] => s
  | op :: ops => run (step s op) ops

/-- A checkin is well-paired when its resolved key is currently checked out and
owns exactly the connection being returned; all other operations are
unconstrained. -/
def validOp (s : PoolState) : Op → Bool
  | Op.put cid key _ _ =>
      match resolveKey s cid key with
      | some k => dlookup s.used k == some cid
      | none => false
  | _ => true

/-- Every checkin of the trace is well-paired at the state it runs in. -/
def validTrace : PoolState → List Op → Bool
  | _, [] => true
  | s, op :: ops => validOp s op && validTrace (step s op) ops

/-! ### Association-list lemmas -/

theorem dlookup_dset_self {κ α : Type} [DecidableEq κ] (l : List (κ × α)) (k : κ) (v : α) :
    dlookup (dset l k v) k = some v := by
  induction l with
  | nil => simp [dset, dlookup]
  | cons kv rest ih =>
    obtain ⟨a, b⟩ := kv
    by_cases h : a = k <;> simp [dset, h, dlookup, ih]

theorem dset_length_of_none {κ α : Type} [DecidableEq κ] {l : List (κ × α)} {k : κ}
    (h : dlookup l k = none) (v : α) :
    (dset l k v).length = l.length + 1 := by
  induction l with
  | nil => simp [dset]
  | cons kv rest ih =>
    obtain ⟨a, b⟩ := kv
    by_cases ha : a = k
    · simp [dlookup, ha] at h
    · simp only [dlookup, if_neg ha] at h
      simp [dset, ha, ih h]

theorem dlookup_some_length_pos {κ α : Type} [DecidableEq κ] {l : List (κ × α)} {k : κ} {v : α}
    (h : dlookup l k = some v) : 1 ≤ l.length := by
  cases l with
  | nil => simp [dlookup] at h
  | cons kv rest => simp

theorem ddel_length_of_some {κ α : Type} [DecidableEq κ] {l : List (κ × α)} {k : κ} {v : α}
    (h : dlookup l k = some v) :
    (ddel l k).length + 1 = l.length := by
  induction l with
  | nil => simp [dlookup] at h
  | cons kv rest ih =>
    obtain ⟨a, b⟩ := kv
    by_cases ha : a = k
    · simp [ddel, ha]
    · simp only [dlookup, if_neg ha] at h
      simp [ddel, ha, ih h]

theorem ddel_length_le {κ α : Type} [DecidableEq κ] (l : List (κ × α)) (k : κ) :
    (ddel l k).length ≤ l.length := by
  induction l with
  | nil => simp [ddel]
  | cons kv rest ih =>
    obtain ⟨a, b⟩ := kv
    by_cases ha : a = k
    · simp [ddel, ha]
    · simp only [ddel, if_neg ha, List.length_cons]
      omega

theorem dlookup_ddel_of_none {κ α : Type} [DecidableEq κ] {l : List (κ × α)} {k k2 : κ}
    (h : dlookup l k2 = none) :
    dlookup (ddel l k) k2 = none := by
  induction l with
  | nil => simp [ddel, dlookup]
  | cons kv rest ih =>
    obtain ⟨a, b⟩ := kv
    by_cases ha : a = k2
    · simp [dlookup, ha] at h
    · simp only [dlookup, if_neg ha] at h
      by_cases hk : a = k
      · simpa [ddel, hk] using h
      · simp [ddel, hk, dlookup, ha, ih h]

theorem dlookup_dupdate_self {κ α : Type} [DecidableEq κ] (l : List (κ × α)) (k : κ) (f : α → α) :
    dlookup (dupdate l k f) k = (dlookup l k).map f := by
  induction l with
  | nil => simp [dupdate, dlookup]
  | cons kv rest ih =>
    obtain ⟨a, b⟩ := kv
    by_cases ha : a = k
    · subst ha
      simp [dupdate, dlookup, ih]
    · simp [dupdate, dlookup, ha, ih]

theorem dlookup_dupdate_ne {κ α : Type} [DecidableEq κ] (l : List (κ × α)) {k k2 : κ} (f : α → α)
    (h : k ≠ k2) :
    dlookup (dupdate l k f) k2 = dlookup l k2 := by
  induction l with
  | nil => simp [dupdate, dlookup]
  | cons kv rest ih =>
    obtain ⟨a, b⟩ := kv
    by_cases ha : a = k
    · subst ha
      simp [dupdate, dlookup, if_neg h, ih]
    · by_cases ha2 : a = k2
      · subst ha2
        simp [dupdate, dlookup, Ne.symm h, ha, ih]
      · simp [dupdate, dlookup, ha, ha2, ih]

/-! ### Structural lemmas: `_release` -/

theorem release_false (s : PoolState) (c : Nat) : release s c false = closeConn s c := by
  unfold release
  simp

theorem release_used (s : PoolState) (c : Nat) (b : Bool) :
    (release s c b).used = s.used := by
  unfold release closeConn
  split <;> rfl

theorem release_rused (s : PoolState) (c : Nat) (b : Bool) :
    (release s c b).rused = s.rused := by
  unfold release closeConn
  split <;> rfl

theorem release_disposed (s : PoolState) (c : Nat) (b : Bool) :
    (release s c b).disposed = s.disposed := by
  unfold release closeConn
  split <;> rfl

theorem release_maxConn (s : PoolState) (c : Nat) (b : Bool) :
    (release s c b).maxConn = s.maxConn := by
  unfold release closeConn
  split <;> rfl

theorem release_disablePooling (s : PoolState) (c : Nat) (b : Bool) :
    (release s c b).disablePooling = s.disablePooling := by
  unfold release closeConn
  split <;> rfl

theorem release_keys (s : PoolState) (c : Nat) (b : Bool) :
    (release s c b).keys = s.keys := by
  unfold release closeConn
  split <;> rfl

theorem release_nextConn (s : PoolState) (c : Nat) (b : Bool) :
    (release s c b).nextConn = s.nextConn := by
  unfold release closeConn
  split <;> rfl

theorem release_now (s : PoolState) (c : Nat) (b : Bool) :
    (release s c b).now = s.now := by
  unfold release closeConn
  split <;> rfl

theorem release_expiration (s : PoolState) (c : Nat) (b : Bool) :
    (release s c b).expiration = s.expiration := by
  unfold release closeConn
  split <;> rfl

theorem release_pool_length (s : PoolState) (c : Nat) (b : Bool) :
    (release s c b).pool.length ≤ s.pool.length := by
  unfold release closeConn
  split
  · exact (List.erase_sublist c s.pool).length_le
  · exact le_refl _

theorem release_conns_ne {s : PoolState} {x c : Nat} (b : Bool) (hne : x ≠ c) :
    dlookup (release s x b).conns c = dlookup s.conns c := by
  unfold release closeConn
  split <;> exact dlookup_dupdate_ne _ _ hne

theorem release_mem_pool {s : PoolState} {x c : Nat} (b : Bool) (hne : x ≠ c)
    (hm : c ∈ s.pool) : c ∈ (release s x b).pool := by
  unfold release closeConn
  split
  · exact (List.mem_erase_of_ne hne.symm).mpr hm
  · exact hm

theorem erase_concat_ne (p : List Nat) (c x : Nat) (hne : x ≠ c) :
    (p ++ [c]).erase x = p.erase x ++ [c] := by
  have hcx : (c == x) = false := beq_eq_false_iff_ne.mpr (Ne.symm hne)
  induction p with
  | nil => simp [List.erase_cons, hcx]
  | cons a tl ih =>
    by_cases hax : (a == x) = true <;>
      simp [List.erase_cons, hax, ih]

theorem release_pool_concat {s : PoolState} {x c : Nat} {p : List Nat} (hne : x ≠ c)
    (hp : s.pool = p ++ [c]) :
    ∃ q, (release s x true).pool = q ++ [c] := by
  unfold release closeConn
  split
  · exact ⟨p.erase x, by simp [hp, erase_concat_ne p c x hne]⟩
  · exact ⟨p, hp⟩

/-! ### Structural lemmas: the purge loop (`for item in expiry_list: _release(item, True)`) -/

theorem foldlRelease_used (items : List Nat) (st : PoolState) :
    (items.foldl (fun t c => release t c true) st).used = st.used := by
  induction items generalizing st with
  | nil => rfl
  | cons a tl ih => rw [List.foldl_cons, ih, release_used]

theorem foldlRelease_rused (items : List Nat) (st : PoolState) :
    (items.foldl (fun t c => release t c true) st).rused = st.rused := by
  induction items generalizing st with
  | nil => rfl
  | cons a tl ih => rw [List.foldl_cons, ih, release_rused]

theorem foldlRelease_disposed (items : List Nat) (st : PoolState) :
    (items.foldl (fun t c => release t c true) st).disposed = st.disposed := by
  induction items generalizing st with
  | nil => rfl
  | cons a tl ih => rw [List.foldl_cons, ih, release_disposed]

theorem foldlRelease_maxConn (items : List Nat) (st : PoolState) :
    (items.foldl (fun t c => release t c true) st).maxConn = st.maxConn := by
  induction items generalizing st with
  | nil => rfl
  | cons a tl ih => rw [List.foldl_cons, ih, release_maxConn]

theorem foldlRelease_disablePooling (items : List Nat) (st : PoolState) :
    (items.foldl (fun t c => release t c true) st).disablePooling = st.disablePooling := by
  induction items generalizing st with
  | nil => rfl
  | cons a tl ih => rw [List.foldl_cons, ih, release_disablePooling]

theorem foldlRelease_keys (items : List Nat) (st : PoolState) :
    (items.foldl (fun t c => release t c true) st).keys = st.keys := by
  induction items generalizing st with
  | nil => rfl
  | cons a tl ih => rw [List.foldl_cons, ih, release_keys]

theorem foldlRelease_nextConn (items : List Nat) (st : PoolState) :
    (items.foldl (fun t c => release t c true) st).nextConn = st.nextConn := by
  induction items generalizing st with
  | nil => rfl
  | cons a tl ih => rw [List.foldl_cons, ih, release_nextConn]

theorem foldlRelease_now (items : List Nat) (st : PoolState) :
    (items.foldl (fun t c => release t c true) st).now = st.now := by
  induction items generalizing st with
  | nil => rfl
  | cons a tl ih => rw [List.foldl_cons, ih, release_now]

theorem foldlRelease_expiration (items : List Nat) (st : PoolState) :
    (items.foldl (fun t c => release t c true) st).expiration = st.expiration := by
  induction items generalizing st with
  | nil => rfl
  | cons a tl ih => rw [List.foldl_cons, ih, release_expiration]

theorem foldlRelease_pool_length (items : List Nat) (st : PoolState) :
    (items.foldl (fun t c => release t c true) st).pool.length ≤ st.pool.length := by
  induction items generalizing st with
  | nil => exact le_refl _
  | cons a tl ih =>
    rw [List.foldl_cons]
    exact le_trans (ih _) (release_pool_length _ _ _)

theorem foldlRelease_conns_not_mem (items : List Nat) (st : PoolState) (c : Nat)
    (hc : c ∉ items) :
    dlookup (items.foldl (fun t x => release t x true) st).conns c = dlookup st.conns c := by
  induction items generalizing st with
  | nil => rfl
  | cons a tl ih =>
    rw [List.foldl_cons]
    have hac : a ≠ c := fun h => hc (h ▸ List.mem_cons_self a tl)
    rw [ih _ (fun h => hc (List.mem_cons_of_mem a h)), release_conns_ne true hac]

theorem foldlRelease_mem_pool (items : List Nat) (st : PoolState) (c : Nat)
    (hc : c ∉ items) (hm : c ∈ st.pool) :
    c ∈ (items.foldl (fun t x => release t x true) st).pool := by
  induction items generalizing st with
  | nil => exact hm
  | cons a tl ih =>
    rw [List.foldl_cons]
    have hac : a ≠ c := fun h => hc (h ▸ List.mem_cons_self a tl)
    exact ih _ (fun h => hc (List.mem_cons_of_mem a h)) (release_mem_pool true hac hm)

theorem foldlRelease_pool_concat (items : List Nat) (st : PoolState) (c : Nat) (p : List Nat)
    (hc : c ∉ items) (hp : st.pool = p ++ [c]) :
    ∃ q, (items.foldl (fun t x => release t x true) st).pool = q ++ [c] := by
  induction items generalizing st p with
  | nil => exact ⟨p, hp⟩
  | cons a tl ih =>
    rw [List.foldl_cons]
    have hac : a ≠ c := fun h => hc (h ▸ List.mem_cons_self a tl)
    obtain ⟨q, hq⟩ := release_pool_concat hac hp
    exact ih _ q (fun h => hc (List.mem_cons_of_mem a h)) hq

/-! ### Structural lemmas: `_purge_expired_connections` -/

theorem purge_used (s : PoolState) : (purgeExpired s).used = s.used := by
  unfold purgeExpired
  split
  · rfl
  · exact foldlRelease_used _ _

theorem purge_rused (s : PoolState) : (purgeExpired s).rused = s.rused := by
  unfold purgeExpired
  split
  · rfl
  · exact foldlRelease_rused _ _

theorem purge_disposed (s : PoolState) : (purgeExpired s).disposed = s.disposed := by
  unfold purgeExpired
  split
  · rfl
  · exact foldlRelease_disposed _ _

theorem purge_maxConn (s : PoolState) : (purgeExpired s).maxConn = s.maxConn := by
  unfold purgeExpired
  split
  · rfl
  · exact foldlRelease_maxConn _ _

theorem purge_disablePooling (s : PoolState) :
    (purgeExpired s).disablePooling = s.disablePooling := by
  unfold purgeExpired
  split
  · rfl
  · exact foldlRelease_disablePooling _ _

theorem purge_keys (s : PoolState) : (purgeExpired s).keys = s.keys := by
  unfold purgeExpired
  split
  · rfl
  · exact foldlRelease_keys _ _

theorem purge_nextConn (s : PoolState) : (purgeExpired s).nextConn = s.nextConn := by
  unfold purgeExpired
  split
  · rfl
  · exact foldlRelease_nextConn _ _

theorem purge_pool_length (s : PoolState) :
    (purgeExpired s).pool.length ≤ s.pool.length := by
  unfold purgeExpired
  split
  · exact le_refl _
  · exact foldlRelease_pool_length _ _

theorem not_mem_filter_of_false {s : PoolState} {c : Nat} (h : isExpired s c = false)
    (l : List Nat) : c ∉ l.filter (isExpired s) := by
  intro hmem
  have := (List.mem_filter.mp hmem).2
  rw [h] at this
  exact Bool.false_ne_true this

theorem purge_conns_not_expired (s : PoolState) (c : Nat) (h : isExpired s c = false) :
    dlookup (purgeExpired s).conns c = dlookup s.conns c := by
  unfold purgeExpired
  split
  · rfl
  · exact foldlRelease_conns_not_mem _ _ _ (not_mem_filter_of_false h _)

theorem purge_mem_pool_not_expired (s : PoolState) (c : Nat) (h : isExpired s c = false)
    (hm : c ∈ s.pool) : c ∈ (purgeExpired s).pool := by
  unfold purgeExpired
  split
  · exact hm
  · exact foldlRelease_mem_pool _ _ _ (not_mem_filter_of_false h _) hm

theorem purge_pool_concat_not_expired (s : PoolState) (c : Nat) (p : List Nat)
    (h : isExpired s c = false) (hp : s.pool = p ++ [c]) :
    ∃ q, (purgeExpired s).pool = q ++ [c] := by
  unfold purgeExpired
  split
  · exact ⟨p, hp⟩
  · exact foldlRelease_pool_concat _ _ _ p (not_mem_filter_of_false h _) hp

/-! ### Structural lemmas: `_put_conn` pieces -/

theorem reconcile_proj (s : PoolState) (cid : Nat) (close : Bool) :
    (reconcile s cid close).1.used = s.used ∧
    (reconcile s cid close).1.rused = s.rused ∧
    (reconcile s cid close).1.tused = s.tused ∧
    (reconcile s cid close).1.disposed = s.disposed ∧
    (reconcile s cid close).1.maxConn = s.maxConn ∧
    (reconcile s cid close).1.disablePooling = s.disablePooling ∧
    (reconcile s cid close).1.expiration = s.expiration ∧
    (reconcile s cid close).1.now = s.now ∧
    (reconcile s cid close).1.pool.length ≤ s.pool.length + 1 := by
  simp only [reconcile]
  split
  · split
    · split
      · exact ⟨rfl, rfl, rfl, rfl, rfl, rfl, rfl, rfl, Nat.le_succ _⟩
      · split
        · refine ⟨rfl, rfl, rfl, rfl, rfl, rfl, rfl, rfl, ?_⟩
          simp [rollbackConn]
        · refine ⟨rfl, rfl, rfl, rfl, rfl, rfl, rfl, rfl, ?_⟩
          simp
    · exact ⟨rfl, rfl, rfl, rfl, rfl, rfl, rfl, rfl, Nat.le_succ _⟩
  · rw [release_false]
    exact ⟨rfl, rfl, rfl, rfl, rfl, rfl, rfl, rfl, Nat.le_succ _⟩

theorem reconcile_cases (s : PoolState) (cid : Nat) (close : Bool) :
    (reconcile s cid close).2 = none ∨
    reconcile s cid close = (s, some PyErr.attributeError) := by
  simp only [reconcile]
  split
  · split
    · split
      · right
        rfl
      · left
        split <;> rfl
    · left
      rfl
  · left
    rfl

theorem reconcile_err_eq {s : PoolState} {cid : Nat} {close : Bool} {e : PyErr}
    (h : (reconcile s cid close).2 = some e) :
    (reconcile s cid close).1 = s := by
  rcases reconcile_cases s cid close with h0 | h0
  · rw [h0] at h
    exact absurd h (by simp)
  · rw [h0]

theorem finishPut_pool (s2 : PoolState) (cid : Nat) (k : PyKey) :
    (finishPut s2 cid k).1.pool = s2.pool := by
  simp only [finishPut]
  split
  · split
    · split <;> rfl
    · rfl
  · rfl

theorem finishPut_used_length {s2 : PoolState} (cid : Nat) {k : PyKey} {c : Nat}
    (h : dlookup s2.used k = some c) :
    (finishPut s2 cid k).1.used.length + 1 = s2.used.length := by
  unfold finishPut
  rw [h]
  simp only [Option.isSome_some, or_true, if_true]
  cases hr : dlookup ({ s2 with used := ddel s2.used k } : PoolState).rused cid <;>
    simpa [hr] using ddel_length_of_some h

theorem finishPut_keyError {s2 : PoolState} (cid : Nat) {k : PyKey}
    (hd : s2.disposed = false) (h : dlookup s2.used k = none) :
    finishPut s2 cid k = (s2, some PyErr.keyError) := by
  unfold finishPut
  simp [hd, h]

theorem finishPut_ok {s2 : PoolState} {cid : Nat} {k : PyKey} {c : Nat} {k2 : PyKey}
    (hu : dlookup s2.used k = some c) (hr : dlookup s2.rused cid = some k2) :
    finishPut s2 cid k =
      ({ s2 with used := ddel s2.used k, rused := ddel s2.rused cid }, none) := by
  unfold finishPut
  simp [hu, hr]

theorem foldlClose_maxConn (items : List Nat) (st : PoolState) :
    (items.foldl closeConn st).maxConn = st.maxConn := by
  induction items generalizing st with
  | nil => rfl
  | cons a tl ih =>
    rw [List.foldl_cons, ih]
    rfl

theorem finishPut_maxConn (s2 : PoolState) (cid : Nat) (k : PyKey) :
    (finishPut s2 cid k).1.maxConn = s2.maxConn := by
  simp only [finishPut]
  split
  · split
    · split <;> rfl
    · rfl
  · rfl

/-! ### Preservation of the capacity field across every operation -/

theorem getConn_maxConn (s : PoolState) (key : Option PyKey) :
    (getConn s key).1.maxConn = s.maxConn := by
  simp only [getConn, connect]
  repeat' split
  all_goals rfl

theorem putConn_maxConn (s : PoolState) (cid : Nat) (key : Option PyKey) (close fs : Bool) :
    (putConn s cid key close fs).1.maxConn = s.maxConn := by
  simp only [putConn]
  split
  · rw [release_false]
    rfl
  · split
    · rfl
    · split
      · split <;> rfl
      · cases hk : resolveKey s cid key with
        | none => simp [hk]
        | some k =>
          simp only [hk]
          split
          · rfl
          · cases hr : (reconcile s cid close).2 with
            | some e =>
              simp only [hr]
              rw [reconcile_err_eq hr]
            | none =>
              simp only [hr]
              rw [finishPut_maxConn, purge_maxConn]
              exact (reconcile_proj s cid close).2.2.2.2.1

theorem releaseAll_maxConn (s : PoolState) : (releaseAll s).1.maxConn = s.maxConn := by
  simp only [releaseAll]
  split
  · rfl
  · split
    · exact foldlClose_maxConn _ _
    · rfl

theorem step_maxConn (s : PoolState) (op : Op) : (step s op).maxConn = s.maxConn := by
  cases op with
  | get key => exact getConn_maxConn s key
  | put cid key close fs => exact putConn_maxConn s cid key close fs
  | purge => exact purge_maxConn s
  | dispose => exact releaseAll_maxConn s
  | tick dt => rfl
  | setStatus cid st => rfl

theorem run_maxConn (ops : List Op) (s : PoolState) : (run s ops).maxConn = s.maxConn := by
  induction ops generalizing s with
  | nil => rfl
  | cons op tl ih => rw [run, ih, step_maxConn]

/-! ### The capacity invariant (claim C3 machinery) -/

theorem putConn_sum_le {s : PoolState} {cid : Nat} {key : Option PyKey} {close fs : Bool}
    {k : PyKey}
    (hk : resolveKey s cid key = some k) (hu : dlookup s.used k = some cid) :
    (putConn s cid key close fs).1.used.length + (putConn s cid key close fs).1.pool.length ≤
      s.used.length + s.pool.length := by
  simp only [putConn]
  split
  · rw [release_false]
    exact le_refl _
  · split
    · exact le_refl _
    · split
      · split <;> exact le_refl _
      · simp only [hk]
        split
        · exact le_refl _
        · cases hr : (reconcile s cid close).2 with
          | some e =>
            simp only [hr]
            rw [reconcile_err_eq hr]
          | none =>
            simp only [hr]
            have hru : (reconcile s cid close).1.used = s.used :=
              (reconcile_proj s cid close).1
            have hpl : (reconcile s cid close).1.pool.length ≤ s.pool.length + 1 :=
              (reconcile_proj s cid close).2.2.2.2.2.2.2.2
            have hPu : dlookup (purgeExpired (reconcile s cid close).1).used k = some cid := by
              rw [purge_used, hru]
              exact hu
            have h1 := finishPut_used_length cid hPu
            have h2 := finishPut_pool (purgeExpired (reconcile s cid close).1) cid k
            have h3 := purge_pool_length (reconcile s cid close).1
            have h4 : 1 ≤ s.used.length := dlookup_some_length_pos hu
            have h5 : (purgeExpired (reconcile s cid close).1).used.length = s.used.length := by
              rw [purge_used, hru]
            rw [h2]
            omega

theorem getConn_sum_le {s : PoolState} (key : Option PyKey)
    (h : s.used.length + s.pool.length ≤ s.maxConn) :
    (getConn s key).1.used.length + (getConn s key).1.pool.length ≤ s.maxConn := by
  by_cases hd : s.disposed = true
  · simpa [getConn, hd] using h
  · by_cases hdp : s.disablePooling = true
    · simpa [getConn, hd, hdp, connect] using h
    · cases key with
      | none =>
        cases hlu : dlookup s.used (PyKey.intKey (s.keys + 1)) with
        | some c => simpa [getConn, hd, hdp, nextKey, hlu] using h
        | none =>
          cases hgl : s.pool.getLast? with
          | some c =>
            have hpne : s.pool ≠ [] := by
              intro he
              rw [he] at hgl
              exact absurd hgl (by simp)
            have hplen : 1 ≤ s.pool.length := List.length_pos.mpr hpne
            simp only [getConn, hd, hdp, nextKey, hlu, hgl, Bool.false_eq_true, if_false]
            rw [dset_length_of_none hlu, List.length_dropLast]
            omega
          | none =>
            have hpe : s.pool = [] := List.getLast?_eq_none_iff.mp hgl
            by_cases hfull : s.used.length = s.maxConn
            · simp [getConn, hd, hdp, nextKey, hlu, hgl, hfull, hpe]
            · simp only [getConn, hd, hdp, nextKey, hlu, hgl, hfull, connect,
                Bool.false_eq_true, if_false]
              rw [dset_length_of_none hlu]
              rw [hpe] at h ⊢
              simp only [List.length_nil] at h ⊢
              omega
      | some kk =>
        cases hlu : dlookup s.used kk with
        | some c => simpa [getConn, hd, hdp, nextKey, hlu] using h
        | none =>
          cases hgl : s.pool.getLast? with
          | some c =>
            have hpne : s.pool ≠ [] := by
              intro he
              rw [he] at hgl
              exact absurd hgl (by simp)
            have hplen : 1 ≤ s.pool.length := List.length_pos.mpr hpne
            simp only [getConn, hd, hdp, nextKey, hlu, hgl, Bool.false_eq_true, if_false]
            rw [dset_length_of_none hlu, List.length_dropLast]
            omega
          | none =>
            have hpe : s.pool = [] := List.getLast?_eq_none_iff.mp hgl
            by_cases hfull : s.used.length = s.maxConn
            · simp [getConn, hd, hdp, nextKey, hlu, hgl, hfull, hpe]
            · simp only [getConn, hd, hdp, nextKey, hlu, hgl, hfull, connect,
                Bool.false_eq_true, if_false]
              rw [dset_length_of_none hlu]
              rw [hpe] at h ⊢
              simp only [List.length_nil] at h ⊢
              omega

theorem step_sum_le {s : PoolState} {op : Op} (hv : validOp s op = true)
    (h : s.used.length + s.pool.length ≤ s.maxConn) :
    (step s op).used.length + (step s op).pool.length ≤ (step s op).maxConn := by
  rw [step_maxConn]
  cases op with
  | get key => exact getConn_sum_le key h
  | put cid key close fs =>
    have hv' : ∃ k, resolveKey s cid key = some k ∧ dlookup s.used k = some cid := by
      simp only [validOp] at hv
      cases hk : resolveKey s cid key with
      | none =>
        rw [hk] at hv
        exact absurd hv (by simp)
      | some k =>
        rw [hk] at hv
        exact ⟨k, rfl, by simpa using hv⟩
    obtain ⟨k, hk, hu⟩ := hv'
    exact le_trans (putConn_sum_le hk hu) h
  | purge =>
    have h1 := purge_pool_length s
    have h2 := purge_used s
    have : (purgeExpired s).used.length + (purgeExpired s).pool.length ≤
        s.used.length + s.pool.length := by
      rw [h2]
      omega
    exact le_trans this h
  | dispose =>
    by_cases hd : s.disposed = true
    · simpa [step, releaseAll, hd] using h
    · simp [step, releaseAll, hd]
  | tick dt => simpa using h
  | setStatus cid st => simpa using h

theorem run_sum_le {s : PoolState} {ops : List Op} (hv : validTrace s ops = true)
    (h : s.used.length + s.pool.length ≤ s.maxConn) :
    (run s ops).used.length + (run s ops).pool.length ≤ (run s ops).maxConn := by
  induction ops generalizing s with
  | nil => exact h
  | cons op tl ih =>
    simp only [validTrace, Bool.and_eq_true] at hv
    have h1 : (step s op).used.length + (step s op).pool.length ≤ (step s op).maxConn :=
      step_sum_le hv.1 h
    exact ih hv.2 h1

/-! ### Scenario lemmas for `_put_conn` -/

theorem reconcile_idle {s : PoolState} {cid : Nat} {ci : ConnInfo}
    (hcap : s.pool.length < s.maxConn)
    (hci : dlookup s.conns cid = some ci) (hopen : ci.closed = false)
    (hidle : ci.status = TxnStatus.idle) :
    reconcile s cid false = ({ s with pool := s.pool ++ [cid] }, none) := by
  simp only [reconcile]
  rw [if_pos ⟨hcap, trivial⟩, hci]
  simp [hopen, hidle]

theorem reconcile_rollback {s : PoolState} {cid : Nat} {ci : ConnInfo}
    (hcap : s.pool.length < s.maxConn)
    (hci : dlookup s.conns cid = some ci) (hopen : ci.closed = false)
    (hsu : ci.status ≠ TxnStatus.unknown) (hsi : ci.status ≠ TxnStatus.idle) :
    reconcile s cid false =
      ({ rollbackConn s cid with pool := (rollbackConn s cid).pool ++ [cid] }, none) := by
  simp only [reconcile]
  rw [if_pos ⟨hcap, trivial⟩, hci]
  simp [hopen, hsu, hsi]

theorem reconcile_close_true (s : PoolState) (cid : Nat) :
    reconcile s cid true = (closeConn s cid, none) := by
  simp only [reconcile]
  rw [if_neg (by simp), release_false]

theorem putConn_eq_finish {s : PoolState} {cid : Nat} {k : PyKey} {key : Option PyKey}
    {close : Bool} (fs : Bool) {t : PoolState}
    (hdp : s.disablePooling = false) (hd : s.disposed = false)
    (hfmt : logFmtRaises key = false)
    (hk : resolveKey s cid key = some k) (hk0 : k.truthy = true)
    (hrec : reconcile s cid close = (t, none)) :
    putConn s cid key close fs = finishPut (purgeExpired t) cid k := by
  simp [putConn, hdp, hd, hfmt, hk, hk0, hrec]

theorem getConn_pops_last {t : PoolState} {k2 : PyKey} {cid : Nat} {q : List Nat}
    (hd : t.disposed = false) (hdp : t.disablePooling = false)
    (hlu : dlookup t.used k2 = none) (hpool : t.pool = q ++ [cid]) :
    (getConn t (some k2)).2 = Except.ok cid := by
  simp [getConn, hd, hdp, nextKey, hlu, hpool]

/-! ### Concrete example pools -/

/-- A pool of capacity 1 whose only connection is checked out: the Used map is
at capacity and the Free set is empty. -/
def exhaustedPoolEx : PoolState := run (mkPool 1 60 false) [Op.get none]

/-- A pool after `release_all`. -/
def disposedPoolEx : PoolState := (releaseAll (mkPool 1 60 false)).1

/-- A pool whose single checked-out connection has lost its server (transaction
status UNKNOWN). -/
def unknownPoolEx : PoolState :=
  run (mkPool 2 60 false) [Op.get none, Op.setStatus 0 TxnStatus.unknown]

/-! ### Claims -/

/-- Claim C3: for every sequence of checkout, checkin, purge and dispose
operations (interleaved with clock advances and server-side status changes) on
a pool constructed with pooling enabled, in which every checkin returns a
connection currently checked out from this pool under the resolved key, the
invariant `|Used map| + |Free set| <= max_conn` holds at every point between
operations. -/
theorem claim_C3_capacity_invariant (mc exp : Nat) (ops : List Op)
    (hv : validTrace (mkPool mc exp false) ops = true) :
    (run (mkPool mc exp false) ops).used.length +
      (run (mkPool mc exp false) ops).pool.length ≤ mc := by
  have h0 : (mkPool mc exp false).used.length + (mkPool mc exp false).pool.length ≤
      (mkPool mc exp false).maxConn := by
    simp [mkPool]
  have h := run_sum_le hv h0
  rwa [run_maxConn] at h

/-- Witness for C3: a concrete valid checkout/checkin trace on a capacity-2 pool. -/
theorem claim_C3_capacity_invariant_witness :
    validTrace (mkPool 2 60 false) [Op.get none, Op.put 0 none false false] = true ∧
    (run (mkPool 2 60 false) [Op.get none, Op.put 0 none false false]).used.length +
      (run (mkPool 2 60 false) [Op.get none, Op.put 0 none false false]).pool.length ≤ 2 :=
  ⟨by decide, claim_C3_capacity_invariant 2 60 [Op.get none, Op.put 0 none false false]
    (by decide)⟩

/-- Claim C4: a checkout on a live pooling pool under a key not in the Used
map, with the Used map at capacity and the Free set empty, fails immediately
with the exhausted PoolError: no connect happens (the connection world and the
fresh-identity counter are untouched) and the bookkeeping is unchanged. -/
theorem claim_C4_exhausted_immediate (s : PoolState) (key : Option PyKey)
    (hd : s.disposed = false) (hdp : s.disablePooling = false)
    (hpool : s.pool = []) (hk : dlookup s.used (nextKey s key) = none)
    (hlen : s.used.length = s.maxConn) :
    (getConn s key).2 = Except.error (PyErr.poolError ("Connection pool exhausted")) ∧
    (getConn s key).1.nextConn = s.nextConn ∧
    (getConn s key).1.conns = s.conns ∧
    (getConn s key).1.used = s.used ∧
    (getConn s key).1.pool = [] := by
  cases key with
  | none =>
    simp only [nextKey] at hk
    simp [getConn, hd, hdp, nextKey, hk, hpool, hlen]
  | some kk =>
    simp only [nextKey] at hk
    simp [getConn, hd, hdp, nextKey, hk, hpool, hlen]

/-- Witness for C4 on a concrete exhausted pool. -/
theorem claim_C4_exhausted_immediate_witness :
    (getConn exhaustedPoolEx none).2 =
      Except.error (PyErr.poolError ("Connection pool exhausted")) :=
  (claim_C4_exhausted_immediate exhaustedPoolEx none
    (by decide) (by decide) (by decide) (by decide) (by decide)).1

/-- Claim C5 counterexample: a checkin with fail_silently = true on a live pool
whose key cannot be resolved (no key supplied, connection not in the Reverse
map) still raises the un-keyed PoolError; the unresolved-key situation is not
downgraded to a silent no-op. -/
theorem claim_C5_counterexample :
    putConn (mkPool 2 60 false) 5 none false true =
      (mkPool 2 60 false, some (PyErr.poolError ("Trying to put un-keyed connection"))) := by
  decide

/-- Claim C5 amended: for a checkin without a supplied key, fail_silently
downgrades only the already-disposed situation to a silent no-op; the
unresolved-key situation (connection absent from the Reverse map) raises the
un-keyed PoolError regardless of fail_silently.  (A checkin that supplies a
truthy int key never reaches either check: it raises TypeError at the eager
log formatting, pool.py line 128.) -/
theorem claim_C5_fail_silently_disposed_only (s : PoolState) (cid : Nat) (close : Bool)
    (hdp : s.disablePooling = false) :
    (s.disposed = true → putConn s cid none close true = (s, none)) ∧
    (s.disposed = false → dlookup s.rused cid = none →
      ∀ fs : Bool, putConn s cid none close fs =
        (s, some (PyErr.poolError ("Trying to put un-keyed connection")))) := by
  constructor
  · intro hd
    simp [putConn, logFmtRaises, hdp, hd]
  · intro hd hk fs
    simp [putConn, logFmtRaises, resolveKey, hdp, hd, hk]

/-- Witness for the amended C5 at concrete inputs: disposed key-less checkin
with fail_silently is a no-op, and an unresolved key raises even with
fail_silently. -/
theorem claim_C5_fail_silently_disposed_only_witness :
    putConn disposedPoolEx 0 none false true = (disposedPoolEx, none) ∧
    putConn (mkPool 2 60 false) 5 none true true =
      (mkPool 2 60 false, some (PyErr.poolError ("Trying to put un-keyed connection"))) :=
  ⟨(claim_C5_fail_silently_disposed_only disposedPoolEx 0 false (by decide)).1 (by decide),
   (claim_C5_fail_silently_disposed_only (mkPool 2 60 false) 5 true (by decide)).2
     (by decide) (by decide) true⟩

/-- Claim C6 counterexample: the exhausted checkout failure and the disposed
checkout failure carry the same exception type (PoolError) and differ only as
values (their message strings), so a caller cannot branch on the error type. -/
theorem claim_C6_counterexample :
    ∃ e1 e2 : PyErr,
      (getConn exhaustedPoolEx none).2 = Except.error e1 ∧
      (getConn disposedPoolEx none).2 = Except.error e2 ∧
      PyErr.ty e1 = PyErr.ty e2 ∧ e1 ≠ e2 := by
  refine ⟨PyErr.poolError ("Connection pool exhausted"),
          PyErr.poolError ("Connection pool is disposed"), rfl, rfl, rfl, by decide⟩

/-- Claim C6 amended: exhaustion and disposal failures (from checkout, key-less
checkin and dispose) all raise the same PoolError exception type; they are
distinguishable only by their message strings. -/
theorem claim_C6_same_type_distinct_message :
    (getConn exhaustedPoolEx none).2 =
      Except.error (PyErr.poolError ("Connection pool exhausted")) ∧
    (getConn disposedPoolEx none).2 =
      Except.error (PyErr.poolError ("Connection pool is disposed")) ∧
    (putConn disposedPoolEx 0 none false false).2 =
      some (PyErr.poolError ("Connection pool is disposed")) ∧
    (releaseAll disposedPoolEx).2 =
      some (PyErr.poolError ("Connection pool is disposed")) ∧
    PyErr.ty (PyErr.poolError ("Connection pool exhausted")) =
      PyErr.ty (PyErr.poolError ("Connection pool is disposed")) ∧
    ("Connection pool exhausted" : String) ≠ ("Connection pool is disposed" : String) :=
  ⟨rfl, rfl, by decide, by decide, rfl, by decide⟩

/-- Claim C7 counterexample: the automatic teardown path (`__del__`, which
delegates to `_release_all`) invoked on an already-disposed pool raises the
disposed PoolError rather than tolerating the call. -/
theorem claim_C7_counterexample :
    delFinalize disposedPoolEx =
      (disposedPoolEx, some (PyErr.poolError ("Connection pool is disposed"))) := by
  decide

/-- Claim C7 amended: a second public release_all on a disposed pool fails with
the disposed PoolError, and the automatic teardown `__del__` — delegating to
the same `_release_all` — raises that same error on an already-disposed pool
(it is suppressed only by the Python runtime's finalizer handling, not by the
pool code, whose sole bail-out guards gc failure during interpreter
shutdown). -/
theorem claim_C7_dispose_not_idempotent (s : PoolState) (hd : s.disposed = true) :
    releaseAll s = (s, some (PyErr.poolError ("Connection pool is disposed"))) ∧
    delFinalize s = (s, some (PyErr.poolError ("Connection pool is disposed"))) := by
  have h : releaseAll s = (s, some (PyErr.poolError ("Connection pool is disposed"))) := by
    simp [releaseAll, hd]
  exact ⟨h, h⟩

/-- Witness for the amended C7 on a concretely disposed pool. -/
theorem claim_C7_dispose_not_idempotent_witness :
    releaseAll disposedPoolEx =
      (disposedPoolEx, some (PyErr.poolError ("Connection pool is disposed"))) :=
  (claim_C7_dispose_not_idempotent disposedPoolEx (by decide)).1

/-- Claim C1 (code bug in `_put_conn`'s UNKNOWN branch, pool.py line 147): a
key-less checkin of an open connection with transaction status UNKNOWN on a
live pooling pool with free capacity does not close the connection.  The
source passes the bound method `conn.close` to `_release`, which then
evaluates `conn.close()` on that method object and raises AttributeError.
Nothing is closed, the connection is never added to the Free set, the
Used/Reverse maps keep their entries, and the same physical connection is
handed out again by a checkout under its key. -/
theorem claim_C1_unknown_checkin_raises :
    putConn unknownPoolEx 0 none false false = (unknownPoolEx, some PyErr.attributeError) ∧
    (dlookup unknownPoolEx.conns 0).map ConnInfo.closed = some false ∧
    (dlookup unknownPoolEx.conns 0).map ConnInfo.closeCount = some 0 ∧
    unknownPoolEx.pool = [] ∧
    dlookup unknownPoolEx.used (PyKey.intKey 1) = some 0 ∧
    (getConn unknownPoolEx (some (PyKey.intKey 1))).2 = Except.ok 0 :=
  ⟨by decide, by decide, by decide, by decide, by decide, rfl⟩

/-- Claim C2 counterexample: a connection created (hence checked out) at time 0
and checked in (key-less) at time 50 is in the Free set with its Last-used
timestamp still 0 — the timestamp is not the time it entered the Free set. -/
theorem claim_C2_counterexample :
    (run (mkPool 2 1000 false) [Op.get none, Op.tick 50, Op.put 0 none false false]).pool
      = [0] ∧
    (run (mkPool 2 1000 false) [Op.get none, Op.tick 50, Op.put 0 none false false]).now
      = 50 ∧
    dlookup (run (mkPool 2 1000 false)
        [Op.get none, Op.tick 50, Op.put 0 none false false]).tused 0 = some 0 :=
  ⟨by decide, by decide, by decide⟩

/-- Claim C2 amended: the Last-used timestamp of a Free-set member records the
time of the checkout (or creation) that last assigned the connection — checkin
never writes it — so the purge measures idle time since the last checkout, not
time spent in the Free set.  Concretely: create/checkout at time 0, checkin,
checkout again at time d1, checkin at time d1 + d2 — the free connection's
timestamp is d1, the checkout time, not the checkin time d1 + d2. -/
theorem claim_C2_timestamp_is_checkout_time (mc exp d1 d2 : Nat)
    (hmc : 0 < mc) (hexp : d1 + d2 < exp) :
    (run (mkPool mc exp false)
        [Op.get none, Op.put 0 none false false, Op.tick d1,
         Op.get (some (PyKey.intKey 2)), Op.tick d2, Op.put 0 none false false]).pool = [0] ∧
    (run (mkPool mc exp false)
        [Op.get none, Op.put 0 none false false, Op.tick d1,
         Op.get (some (PyKey.intKey 2)), Op.tick d2, Op.put 0 none false false]).now
      = d1 + d2 ∧
    dlookup (run (mkPool mc exp false)
        [Op.get none, Op.put 0 none false false, Op.tick d1,
         Op.get (some (PyKey.intKey 2)), Op.tick d2, Op.put 0 none false false]).tused 0
      = some d1 := by
  have hmc' : ¬ (0 = mc) := by omega
  have hx1 : ¬ (exp ≤ 0) := by omega
  have hx2 : ¬ (exp ≤ d2) := by omega
  have e1 : step (mkPool mc exp false) (Op.get none) =
      { pool := [], used := [(PyKey.intKey 1, 0)], rused := [(0, PyKey.intKey 1)],
        tused := [(0, 0)], keys := 1, disposed := false, maxConn := mc, expiration := exp,
        disablePooling := false, conns := [(0, ⟨false, TxnStatus.idle, 0, 0⟩)],
        nextConn := 1, now := 0 } := by
    simp [step, getConn, connect, nextKey, mkPool, dlookup, dset, hmc']
  have e2 : step ({
        pool := [], used := [(PyKey.intKey 1, 0)], rused := [(0, PyKey.intKey 1)],
        tused := [(0, 0)], keys := 1, disposed := false, maxConn := mc, expiration := exp,
        disablePooling := false, conns := [(0, ⟨false, TxnStatus.idle, 0, 0⟩)],
        nextConn := 1, now := 0 } : PoolState) (Op.put 0 none false false) =
      { pool := [0], used := [], rused := [], tused := [(0, 0)], keys := 1,
        disposed := false, maxConn := mc, expiration := exp, disablePooling := false,
        conns := [(0, ⟨false, TxnStatus.idle, 0, 0⟩)], nextConn := 1, now := 0 } := by
    simp [step, putConn, logFmtRaises, resolveKey, PyKey.truthy, reconcile, finishPut,
      purgeExpired, isExpired, release, closeConn, dlookup, dset, ddel, hmc, hx1]
  have e3 : step ({
        pool := [0], used := [], rused := [], tused := [(0, 0)], keys := 1,
        disposed := false, maxConn := mc, expiration := exp, disablePooling := false,
        conns := [(0, ⟨false, TxnStatus.idle, 0, 0⟩)], nextConn := 1, now := 0 } : PoolState)
      (Op.tick d1) =
      { pool := [0], used := [], rused := [], tused := [(0, 0)], keys := 1,
        disposed := false, maxConn := mc, expiration := exp, disablePooling := false,
        conns := [(0, ⟨false, TxnStatus.idle, 0, 0⟩)], nextConn := 1, now := d1 } := by
    simp [step]
  have e4 : step ({
        pool := [0], used := [], rused := [], tused := [(0, 0)], keys := 1,
        disposed := false, maxConn := mc, expiration := exp, disablePooling := false,
        conns := [(0, ⟨false, TxnStatus.idle, 0, 0⟩)], nextConn := 1, now := d1 } : PoolState)
      (Op.get (some (PyKey.intKey 2))) =
      { pool := [], used := [(PyKey.intKey 2, 0)], rused := [(0, PyKey.intKey 2)],
        tused := [(0, d1)], keys := 1, disposed := false, maxConn := mc, expiration := exp,
        disablePooling := false, conns := [(0, ⟨false, TxnStatus.idle, 0, 0⟩)],
        nextConn := 1, now := d1 } := by
    simp [step, getConn, nextKey, dlookup, dset]
  have e5 : step ({
        pool := [], used := [(PyKey.intKey 2, 0)], rused := [(0, PyKey.intKey 2)],
        tused := [(0, d1)], keys := 1, disposed := false, maxConn := mc, expiration := exp,
        disablePooling := false, conns := [(0, ⟨false, TxnStatus.idle, 0, 0⟩)],
        nextConn := 1, now := d1 } : PoolState) (Op.tick d2) =
      { pool := [], used := [(PyKey.intKey 2, 0)], rused := [(0, PyKey.intKey 2)],
        tused := [(0, d1)], keys := 1, disposed := false, maxConn := mc, expiration := exp,
        disablePooling := false, conns := [(0, ⟨false, TxnStatus.idle, 0, 0⟩)],
        nextConn := 1, now := d1 + d2 } := by
    simp [step]
  have e6 : step ({
        pool := [], used := [(PyKey.intKey 2, 0)], rused := [(0, PyKey.intKey 2)],
        tused := [(0, d1)], keys := 1, disposed := false, maxConn := mc, expiration := exp,
        disablePooling := false, conns := [(0, ⟨false, TxnStatus.idle, 0, 0⟩)],
        nextConn := 1, now := d1 + d2 } : PoolState) (Op.put 0 none false false) =
      { pool := [0], used := [], rused := [], tused := [(0, d1)], keys := 1,
        disposed := false, maxConn := mc, expiration := exp, disablePooling := false,
        conns := [(0, ⟨false, TxnStatus.idle, 0, 0⟩)], nextConn := 1, now := d1 + d2 } := by
    simp [step, putConn, logFmtRaises, resolveKey, PyKey.truthy, reconcile, finishPut,
      purgeExpired, isExpired, release, closeConn, dlookup, dset, ddel, hmc, hx2]
  have hrun : run (mkPool mc exp false)
      [Op.get none, Op.put 0 none false false, Op.tick d1,
       Op.get (some (PyKey.intKey 2)), Op.tick d2, Op.put 0 none false false] =
      { pool := [0], used := [], rused := [], tused := [(0, d1)], keys := 1,
        disposed := false, maxConn := mc, expiration := exp, disablePooling := false,
        conns := [(0, ⟨false, TxnStatus.idle, 0, 0⟩)], nextConn := 1, now := d1 + d2 } := by
    simp only [run]
    rw [e1, e2, e3, e4, e5, e6]
  rw [hrun]
  refine ⟨rfl, rfl, ?_⟩
  simp [dlookup]

/-- Witness for the amended C2: checkout at time 3, checkin at time 7; the
free connection's timestamp reads 3. -/
theorem claim_C2_timestamp_is_checkout_time_witness :
    (run (mkPool 2 1000 false)
        [Op.get none, Op.put 0 none false false, Op.tick 3,
         Op.get (some (PyKey.intKey 2)), Op.tick 4, Op.put 0 none false false]).pool = [0] ∧
    (run (mkPool 2 1000 false)
        [Op.get none, Op.put 0 none false false, Op.tick 3,
         Op.get (some (PyKey.intKey 2)), Op.tick 4, Op.put 0 none false false]).now = 7 ∧
    dlookup (run (mkPool 2 1000 false)
        [Op.get none, Op.put 0 none false false, Op.tick 3,
         Op.get (some (PyKey.intKey 2)), Op.tick 4, Op.put 0 none false false]).tused 0
      = some 3 :=
  claim_C2_timestamp_is_checkout_time 2 1000 3 4 (by decide) (by decide)

/-- Claim C8 counterexample: a checkin via put_conn(conn, key=1) of an open
InTransaction connection on a live pooling pool with free capacity — all of
the claim's conditions hold — raises TypeError at the eager log formatting
(pool.py line 128) before anything happens: the state is returned unchanged,
rollback() is never invoked (the count stays 0) and the connection is not
placed into the Free set (which stays empty). -/
theorem claim_C8_counterexample :
    putConn (run (mkPool 2 60 false) [Op.get none, Op.setStatus 0 TxnStatus.inTrans])
        0 (some (PyKey.intKey 1)) false false =
      (run (mkPool 2 60 false) [Op.get none, Op.setStatus 0 TxnStatus.inTrans],
       some PyErr.typeError) ∧
    (dlookup (run (mkPool 2 60 false)
        [Op.get none, Op.setStatus 0 TxnStatus.inTrans]).conns 0).map
      ConnInfo.rollbackCount = some 0 ∧
    (run (mkPool 2 60 false) [Op.get none, Op.setStatus 0 TxnStatus.inTrans]).pool = [] ∧
    dlookup (run (mkPool 2 60 false)
        [Op.get none, Op.setStatus 0 TxnStatus.inTrans]).used (PyKey.intKey 1) = some 0 :=
  ⟨by decide, by decide, by decide, by decide⟩

/-- Claim C8 amended: for every checkin WITHOUT an explicitly supplied key (the
key resolved via the Reverse map) on a live pooling pool, close not requested,
Free set below max_conn, connection open with status InTransaction or Error,
rollback() is invoked exactly once on that connection and it is placed into
the Free set (the not-yet-expired hypothesis keeps the checkin's own purge
pass from immediately evicting it).  A checkin that supplies an integer key
instead raises TypeError at the eager log formatting before any rollback. -/
theorem claim_C8_rollback_once (s : PoolState) (cid : Nat) (k : PyKey)
    (fs : Bool) (ci : ConnInfo)
    (hdp : s.disablePooling = false) (hd : s.disposed = false)
    (hcap : s.pool.length < s.maxConn)
    (hk : dlookup s.rused cid = some k) (hk0 : k.truthy = true)
    (hu : dlookup s.used k = some cid)
    (hci : dlookup s.conns cid = some ci) (hopen : ci.closed = false)
    (hst : ci.status = TxnStatus.inTrans ∨ ci.status = TxnStatus.inError)
    (hne : isExpired s cid = false) :
    (putConn s cid none false fs).2 = none ∧
    (dlookup (putConn s cid none false fs).1.conns cid).map ConnInfo.rollbackCount =
      some (ci.rollbackCount + 1) ∧
    cid ∈ (putConn s cid none false fs).1.pool := by
  have hsu : ci.status ≠ TxnStatus.unknown := by
    rcases hst with h | h <;> simp [h]
  have hsi : ci.status ≠ TxnStatus.idle := by
    rcases hst with h | h <;> simp [h]
  have hrec := reconcile_rollback hcap hci hopen hsu hsi
  have hput := putConn_eq_finish fs hdp hd
    (show logFmtRaises none = false from rfl) hk hk0 hrec
  have hAexp : isExpired
      ({ rollbackConn s cid with pool := (rollbackConn s cid).pool ++ [cid] } : PoolState)
      cid = false := hne
  have hPu : dlookup (purgeExpired
      ({ rollbackConn s cid with pool := (rollbackConn s cid).pool ++ [cid] } : PoolState)).used
      k = some cid := by
    rw [purge_used]
    exact hu
  have hPr : dlookup (purgeExpired
      ({ rollbackConn s cid with pool := (rollbackConn s cid).pool ++ [cid] } : PoolState)).rused
      cid = some k := by
    rw [purge_rused]
    exact hk
  have hfin := finishPut_ok hPu hPr
  rw [hput, hfin]
  refine ⟨rfl, ?_, ?_⟩
  · show (dlookup (purgeExpired
        ({ rollbackConn s cid with pool := (rollbackConn s cid).pool ++ [cid] } :
          PoolState)).conns cid).map ConnInfo.rollbackCount = some (ci.rollbackCount + 1)
    rw [purge_conns_not_expired _ _ hAexp]
    show (dlookup (dupdate s.conns cid (fun c0 =>
        { c0 with status := TxnStatus.idle, rollbackCount := c0.rollbackCount + 1 })) cid).map
        ConnInfo.rollbackCount = some (ci.rollbackCount + 1)
    rw [dlookup_dupdate_self, hci]
    rfl
  · show cid ∈ (purgeExpired
        ({ rollbackConn s cid with pool := (rollbackConn s cid).pool ++ [cid] } :
          PoolState)).pool
    exact purge_mem_pool_not_expired _ _ hAexp (by simp)

/-- Witness for the amended C8 on a concrete pool whose checked-out connection
is in a transaction: the key-less checkin rolls it back once and frees it. -/
theorem claim_C8_rollback_once_witness :
    (putConn (run (mkPool 2 60 false) [Op.get none, Op.setStatus 0 TxnStatus.inTrans])
        0 none false false).2 = none ∧
    (dlookup (putConn (run (mkPool 2 60 false) [Op.get none, Op.setStatus 0 TxnStatus.inTrans])
        0 none false false).1.conns 0).map ConnInfo.rollbackCount = some 1 ∧
    0 ∈ (putConn (run (mkPool 2 60 false) [Op.get none, Op.setStatus 0 TxnStatus.inTrans])
        0 none false false).1.pool :=
  claim_C8_rollback_once
    (run (mkPool 2 60 false) [Op.get none, Op.setStatus 0 TxnStatus.inTrans])
    0 (PyKey.intKey 1) false ⟨false, TxnStatus.inTrans, 0, 0⟩
    (by decide) (by decide) (by decide) (by decide) (by decide) (by decide) (by decide)
    (by decide) (Or.inl (by decide)) (by decide)

/-- Claim C9 counterexample: a checkin via put_conn(conn, key=1) of the open
Idle connection raises TypeError at the eager log formatting — nothing is
appended to the Free set (checkin does NOT append), and the very next checkout
under a fresh key returns a newly connected physical connection (identity 1),
not the checked-in one (identity 0). -/
theorem claim_C9_counterexample :
    putConn (run (mkPool 2 60 false) [Op.get none]) 0 (some (PyKey.intKey 1)) false false =
      (run (mkPool 2 60 false) [Op.get none], some PyErr.typeError) ∧
    (run (mkPool 2 60 false) [Op.get none]).pool = [] ∧
    (getConn (run (mkPool 2 60 false) [Op.get none]) (some (PyKey.intKey 5))).2 =
      Except.ok 1 :=
  ⟨by decide, by decide, rfl⟩

/-- Claim C9 amended: the Free set is LIFO for checkins WITHOUT an explicitly
supplied key: such a checkin of an open Idle connection appends it at the end
of the free list, and the very next checkout under a key not currently checked
out pops the end, returning the same physical connection (the not-yet-expired
hypothesis keeps the checkin's purge pass from evicting it first).  A checkin
that supplies an integer key instead raises TypeError and appends nothing. -/
theorem claim_C9_lifo_reuse (s : PoolState) (cid : Nat) (k kNew : PyKey)
    (fs : Bool) (ci : ConnInfo)
    (hdp : s.disablePooling = false) (hd : s.disposed = false)
    (hcap : s.pool.length < s.maxConn)
    (hk : dlookup s.rused cid = some k) (hk0 : k.truthy = true)
    (hu : dlookup s.used k = some cid)
    (hci : dlookup s.conns cid = some ci) (hopen : ci.closed = false)
    (hidle : ci.status = TxnStatus.idle)
    (hne : isExpired s cid = false)
    (hfresh : dlookup s.used kNew = none) :
    (putConn s cid none false fs).2 = none ∧
    (∃ q, (putConn s cid none false fs).1.pool = q ++ [cid]) ∧
    (getConn (putConn s cid none false fs).1 (some kNew)).2 = Except.ok cid := by
  have hrec := reconcile_idle hcap hci hopen hidle
  have hput := putConn_eq_finish fs hdp hd
    (show logFmtRaises none = false from rfl) hk hk0 hrec
  have hIexp : isExpired ({ s with pool := s.pool ++ [cid] } : PoolState) cid = false := hne
  have hPu : dlookup (purgeExpired ({ s with pool := s.pool ++ [cid] } : PoolState)).used k =
      some cid := by
    rw [purge_used]
    exact hu
  have hPr : dlookup (purgeExpired ({ s with pool := s.pool ++ [cid] } : PoolState)).rused cid =
      some k := by
    rw [purge_rused]
    exact hk
  have hfin := finishPut_ok hPu hPr
  obtain ⟨q, hq⟩ := purge_pool_concat_not_expired
    ({ s with pool := s.pool ++ [cid] } : PoolState) cid s.pool hIexp rfl
  rw [hput, hfin]
  refine ⟨rfl, ⟨q, hq⟩, ?_⟩
  refine getConn_pops_last ?_ ?_ ?_ hq
  · show (purgeExpired ({ s with pool := s.pool ++ [cid] } : PoolState)).disposed = false
    rw [purge_disposed]
    exact hd
  · show (purgeExpired ({ s with pool := s.pool ++ [cid] } : PoolState)).disablePooling = false
    rw [purge_disablePooling]
    exact hdp
  · show dlookup (ddel (purgeExpired ({ s with pool := s.pool ++ [cid] } : PoolState)).used k)
        kNew = none
    rw [purge_used]
    exact dlookup_ddel_of_none hfresh

/-- Witness for the amended C9: a key-less checkin of the only connection of a
fresh pool, then a checkout under the fresh key 5, returns the same
connection. -/
theorem claim_C9_lifo_reuse_witness :
    (putConn (run (mkPool 2 60 false) [Op.get none]) 0 none false false).2 = none ∧
    (∃ q, (putConn (run (mkPool 2 60 false) [Op.get none]) 0 none false false).1.pool =
      q ++ [0]) ∧
    (getConn (putConn (run (mkPool 2 60 false) [Op.get none]) 0 none false false).1
      (some (PyKey.intKey 5))).2 = Except.ok 0 :=
  claim_C9_lifo_reuse (run (mkPool 2 60 false) [Op.get none])
    0 (PyKey.intKey 1) (PyKey.intKey 5) false ⟨false, TxnStatus.idle, 0, 0⟩
    (by decide) (by decide) (by decide) (by decide) (by decide) (by decide) (by decide)
    (by decide) (by decide) (by decide) (by decide)

/-- Claim C10 counterexample: put_conn with the explicitly supplied int key 7,
not present in the Used map, raises TypeError at the eager log formatting
(pool.py line 128) with zero mutation — the failure is atomic and is not the
claimed mutate-then-KeyError. -/
theorem claim_C10_counterexample :
    putConn (run (mkPool 2 60 false) [Op.get none]) 0 (some (PyKey.intKey 7)) false false =
      (run (mkPool 2 60 false) [Op.get none], some PyErr.typeError) := by
  decide

/-- Claim C10 amended: a checkin that supplies a truthy integer key raises
TypeError at the eager log formatting (pool.py line 128) before the disposed
check, the key checks and any mutation — that failure is atomic.  The claimed
behaviour occurs for a supplied non-empty STRING key not present in the Used
map: the pool state is mutated first (the open Idle connection appended to the
Free set, or closed when close is requested), and `del self._used[key]` then
raises KeyError with the mutation kept — the failure is not atomic. -/
theorem claim_C10_keyed_checkin_errors (s : PoolState) (cid n : Nat) (sk : String)
    (close fs : Bool) (ci : ConnInfo)
    (hdp : s.disablePooling = false) (hd : s.disposed = false)
    (hn : n ≠ 0) (hs : sk ≠ "")
    (hu : dlookup s.used (PyKey.strKey sk) = none)
    (hcap : s.pool.length < s.maxConn)
    (hci : dlookup s.conns cid = some ci) (hopen : ci.closed = false)
    (hidle : ci.status = TxnStatus.idle)
    (hne : isExpired s cid = false) :
    putConn s cid (some (PyKey.intKey n)) close fs = (s, some PyErr.typeError) ∧
    (putConn s cid (some (PyKey.strKey sk)) close fs).2 = some PyErr.keyError ∧
    (putConn s cid (some (PyKey.strKey sk)) close fs).1.used = s.used ∧
    (close = false → cid ∈ (putConn s cid (some (PyKey.strKey sk)) close fs).1.pool) ∧
    (close = true → (dlookup (putConn s cid (some (PyKey.strKey sk)) close fs).1.conns cid).map
        ConnInfo.closeCount = some (ci.closeCount + 1)) := by
  have hint : putConn s cid (some (PyKey.intKey n)) close fs = (s, some PyErr.typeError) := by
    simp [putConn, logFmtRaises, hdp, hn]
  have hk0 : (PyKey.strKey sk).truthy = true := by
    simp [PyKey.truthy, hs]
  refine ⟨hint, ?_⟩
  cases close with
  | false =>
    have hrec := reconcile_idle hcap hci hopen hidle
    have hput := putConn_eq_finish fs hdp hd
      (show logFmtRaises (some (PyKey.strKey sk)) = false from rfl)
      (show resolveKey s cid (some (PyKey.strKey sk)) = some (PyKey.strKey sk) from rfl)
      hk0 hrec
    have hIexp : isExpired ({ s with pool := s.pool ++ [cid] } : PoolState) cid = false := hne
    have hPu : dlookup (purgeExpired ({ s with pool := s.pool ++ [cid] } : PoolState)).used
        (PyKey.strKey sk) = none := by
      rw [purge_used]
      exact hu
    have hPd : (purgeExpired ({ s with pool := s.pool ++ [cid] } : PoolState)).disposed =
        false := by
      rw [purge_disposed]
      exact hd
    have hfk := finishPut_keyError cid hPd hPu
    rw [hput, hfk]
    refine ⟨rfl, ?_, ?_, ?_⟩
    · show (purgeExpired ({ s with pool := s.pool ++ [cid] } : PoolState)).used = s.used
      rw [purge_used]
    · intro _
      exact purge_mem_pool_not_expired _ _ hIexp (by simp)
    · intro hcl
      exact absurd hcl (by simp)
  | true =>
    have hrec := reconcile_close_true s cid
    have hput := putConn_eq_finish fs hdp hd
      (show logFmtRaises (some (PyKey.strKey sk)) = false from rfl)
      (show resolveKey s cid (some (PyKey.strKey sk)) = some (PyKey.strKey sk) from rfl)
      hk0 hrec
    have hCexp : isExpired (closeConn s cid) cid = false := hne
    have hPu : dlookup (purgeExpired (closeConn s cid)).used (PyKey.strKey sk) = none := by
      rw [purge_used]
      exact hu
    have hPd : (purgeExpired (closeConn s cid)).disposed = false := by
      rw [purge_disposed]
      exact hd
    have hfk := finishPut_keyError cid hPd hPu
    rw [hput, hfk]
    refine ⟨rfl, ?_, ?_, ?_⟩
    · show (purgeExpired (closeConn s cid)).used = s.used
      rw [purge_used]
      rfl
    · intro hcl
      exact absurd hcl (by simp)
    · intro _
      show (dlookup (purgeExpired (closeConn s cid)).conns cid).map ConnInfo.closeCount =
        some (ci.closeCount + 1)
      rw [purge_conns_not_expired _ _ hCexp]
      show (dlookup (dupdate s.conns cid (fun c0 =>
          { c0 with closed := true, closeCount := c0.closeCount + 1 })) cid).map
          ConnInfo.closeCount = some (ci.closeCount + 1)
      rw [dlookup_dupdate_self, hci]
      rfl

/-- Witness for the amended C10: int key 7 gives an atomic TypeError; the
string key slot, absent from the Used map, appends the connection to the free
list and then raises KeyError with the Used map untouched. -/
theorem claim_C10_keyed_checkin_errors_witness :
    putConn (run (mkPool 2 60 false) [Op.get none]) 0 (some (PyKey.intKey 7)) false false =
      (run (mkPool 2 60 false) [Op.get none], some PyErr.typeError) ∧
    (putConn (run (mkPool 2 60 false) [Op.get none]) 0 (some (PyKey.strKey ("slot")))
        false false).2 = some PyErr.keyError ∧
    (putConn (run (mkPool 2 60 false) [Op.get none]) 0 (some (PyKey.strKey ("slot")))
        false false).1.used = (run (mkPool 2 60 false) [Op.get none]).used ∧
    (false = false → 0 ∈ (putConn (run (mkPool 2 60 false) [Op.get none])
        0 (some (PyKey.strKey ("slot"))) false false).1.pool) ∧
    (false = true → (dlookup (putConn (run (mkPool 2 60 false) [Op.get none])
        0 (some (PyKey.strKey ("slot"))) false false).1.conns 0).map ConnInfo.closeCount =
      some 1) :=
  claim_C10_keyed_checkin_errors (run (mkPool 2 60 false) [Op.get none])
    0 7 ("slot") false false ⟨false, TxnStatus.idle, 0, 0⟩
    (by decide) (by decide) (by decide) (by decide) (by decide) (by decide) (by decide)
    (by decide) (by decide) (by decide)

end PgPool
